import Mathlib

/-!
# Verification of the PDF document-processor pipeline

A shallow embedding, in Lean 4, of the core of `src/pdf_processor.py`:
the filename sanitizer, the collision-safe path resolver, the OCR adapter
with its one-shot Ghostscript repair-and-retry policy, the LLM response
parsing of the document classifier, and the per-file orchestrator logic
(date validation, category handling, move-then-delete ordering).

External collaborators (the `ocrmypdf` and `gs` child processes, the HTTP
inference endpoint, `json.loads`, the filesystem) are modelled as explicit
oracles/parameters; the repository's own logic is translated line by line.
Strings are modelled as Lean `String`/`List Char` (the repository only ever
manipulates them as character sequences).
-/

namespace PdfProcessor

/-! ## Filename sanitizer (`sanitize_filename`, lines 48-60)

The Python function is

```
name = re.sub(r'[<>:"/\\|?*]', '_', name)
name = re.sub(r'_+', '_', name)
name = name.strip(' _')
max_len = 200
if len(name) > max_len:
    parts = name[:max_len].split(' ')
    if len(parts) > 1:
        name = ' '.join(parts[:-1])
    else:
        name = name[:max_len]
return name
```

Each regex/str operation is translated to an executable function on
`List Char`. -/

/-- The characters the sanitizer replaces: `<>:"/\|?*`. -/
def forbiddenChars : List Char := ['<', '>', ':', '"', '/', '\\', '|', '?', '*']

/-- `c` is one of the disallowed filename characters. -/
def isForbidden (c : Char) : Bool := forbiddenChars.contains c

/-- `re.sub(r'[<>:"/\\|?*]', '_', name)`: replace each disallowed character
by an underscore. -/
def replaceForbidden (cs : List Char) : List Char :=
  cs.map fun c => if isForbidden c then '_' else c

/-- Worker for `re.sub(r'_+', '_', name)`: the boolean records whether the
previously emitted character was an underscore (in which case further
underscores are dropped). -/
def collapseUnderscoresAux : Bool → List Char → List Char
  | _, [] => []
  | true, c :: rest =>
    if c = '_' then collapseUnderscoresAux true rest
    else c :: collapseUnderscoresAux false rest
  | false, c :: rest =>
    if c = '_' then '_' :: collapseUnderscoresAux true rest
    else c :: collapseUnderscoresAux false rest

/-- `re.sub(r'_+', '_', name)`: collapse every run of underscores to one. -/
def collapseUnderscores (cs : List Char) : List Char := collapseUnderscoresAux false cs

/-- The characters stripped by `name.strip(' _')`. -/
def stripSet (c : Char) : Bool := c = ' ' || c = '_'

/-- `name.strip(' _')`: drop leading and trailing spaces/underscores. -/
def stripSpaceUnderscore (cs : List Char) : List Char :=
  (cs.dropWhile stripSet).rdropWhile stripSet

/-- `str.split(' ')` for the single-space separator: Python keeps empty
pieces between consecutive separators, so the result is always non-empty. -/
def pySplitSpace : List Char → List (List Char)
  | [] => [[]]
  | c :: rest =>
    match pySplitSpace rest with
    | [] => [[]]
    | p :: ps => if c = ' ' then [] :: p :: ps else (c :: p) :: ps

/-- `' '.join(parts)`. -/
def joinSpaces : List (List Char) → List Char
  | [] => []
  | [p] => p
  | p :: q :: ps => p ++ ' ' :: joinSpaces (q :: ps)

/-- The length cap `max_len = 200` of the sanitizer. -/
def max_len : Nat := 200

/-- The truncation step of `sanitize_filename`: if the name exceeds 200
characters, keep the first 200 and drop the final (possibly cut) word when
there is a space to cut at. -/
def truncateName (cs : List Char) : List Char :=
  if max_len < cs.length then
    if 1 < (pySplitSpace (cs.take max_len)).length then
      joinSpaces (pySplitSpace (cs.take max_len)).dropLast
    else cs.take max_len
  else cs

/-- `sanitize_filename` on character lists: the four steps in source order. -/
def sanitizeList (cs : List Char) : List Char :=
  truncateName (stripSpaceUnderscore (collapseUnderscores (replaceForbidden cs)))

/-- `sanitize_filename(name)` (lines 48-60). -/
def sanitize_filename (s : String) : String := String.mk (sanitizeList s.data)

/-- Two adjacent characters are not both underscores. -/
def underscoreApart (a b : Char) : Prop := ¬(a = '_' ∧ b = '_')

instance (a b : Char) : Decidable (underscoreApart a b) := by
  unfold underscoreApart; infer_instance

/-- No two consecutive underscores anywhere in the list. -/
def NoDoubleUnderscore (cs : List Char) : Prop :=
  List.Chain' underscoreApart cs

instance : DecidablePred NoDoubleUnderscore := fun _ =>
  inferInstanceAs (Decidable (List.Chain' _ _))

/-! ## Collision-safe path resolver (`get_next_available_filename`, lines 280-294) -/

/-- A filesystem path split the way the Python code manipulates it:
`parent` directory, `stem` (name without extension) and `ext` (the
extension, `Path.suffix`). -/
structure SplitPath where
  parent : String
  stem : String
  ext : String
deriving DecidableEq

/-- The full textual path of a `SplitPath`. -/
def SplitPath.render (p : SplitPath) : String := p.parent ++ "/" ++ p.stem ++ p.ext

/-- `parent / f"{base} ({counter}){ext}"`: the candidate probed by the
collision loop. -/
def numberedPath (p : SplitPath) (counter : Nat) : SplitPath :=
  { parent := p.parent, stem := p.stem ++ " (" ++ toString counter ++ ")", ext := p.ext }

/-- The `while True` probe loop of `get_next_available_filename`. The loop is
unbounded in Python; `fuel` makes it a total function, and every theorem
about it supplies enough fuel for the counter it names. Filesystem existence
(`Path.exists()`) is modelled as membership of the rendered path in `fs`. -/
def probeCounter (fs : List String) (p : SplitPath) : Nat → Nat → Option SplitPath
  | _, 0 => none
  | counter, fuel + 1 =>
    if (numberedPath p counter).render ∈ fs then probeCounter fs p (counter + 1) fuel
    else some (numberedPath p counter)

/-- `get_next_available_filename(target_path)` (lines 280-294): the input
path unchanged when nothing exists there, else the first free numbered
sibling starting from counter 1. -/
def get_next_available_filename (fs : List String) (target : SplitPath) (fuel : Nat) :
    Option SplitPath :=
  if target.render ∈ fs then probeCounter fs target 1 fuel
  else some target

/-! ## OCR adapter with repair-and-retry (`run_ocrmypdf`, lines 96-163)

The external tools are oracles in an `OcrEnv`: `ocr_outcome` gives, per
input path, how the `ocrmypdf` child process ends (`subprocess.run` with
`check=True` either returns, raises `FileNotFoundError`, raises
`CalledProcessError` carrying `returncode`/`stderr`, or raises some other
exception); `repair_outcome` gives, per input/output path pair, whether
`run_ghostscript_repair` succeeds (that adapter, lines 62-94, returns a
plain boolean and is itself a thin wrapper over the `gs` child process). -/

/-- How the `ocrmypdf` subprocess call can end. -/
inductive OcrOutcome where
  | ok
  | toolMissing
  | exitError (returncode : Int) (stderr : String)
  | unexpectedError
deriving DecidableEq

/-- The external-process oracles of the OCR adapter. -/
structure OcrEnv where
  ocr_outcome : String → OcrOutcome
  repair_outcome : String → String → Bool

/-- `run_ghostscript_repair(input_path, output_path)` (lines 62-94): every
failure mode of the external rewriter is a `false` from the oracle. -/
def run_ghostscript_repair (env : OcrEnv) (input output : SplitPath) : Bool :=
  env.repair_outcome input.render output.render

/-- `input_path.parent / f"{input_path.stem}_repaired_temp{input_path.suffix}"`
(lines 131-132). -/
def repairedTempPath (input : SplitPath) : SplitPath :=
  { parent := input.parent, stem := input.stem ++ "_repaired_temp", ext := input.ext }

/-- `"ghostscript" in stderr_decoded.lower()` (line 126). `needleIn` is
Python's substring containment on character lists. -/
def needleIn (needle : List Char) : List Char → Bool
  | [] => needle.isEmpty
  | hay@(_ :: rest) => needle.isPrefixOf hay || needleIn needle rest

/-- The stderr test of the retry condition. -/
def mentions_ghostscript (stderr : String) : Bool :=
  needleIn "ghostscript".data (stderr.data.map Char.toLower)

/-- What one call of `run_ocrmypdf` did: its boolean result plus
instrumentation counting how often the repair adapter was invoked and how
many times the OCR tool ran (the recursion depth is `ocrAttempts - 1`). -/
structure OcrRun where
  success : Bool
  repairsInvoked : Nat
  ocrAttempts : Nat
deriving DecidableEq

/-- `run_ocrmypdf(input_path, output_path, is_retry)` (lines 96-163).
On `CalledProcessError` with `returncode == 7`, stderr mentioning
Ghostscript and `is_retry` false, it derives the repaired temp path, runs
the repair adapter, and on repair success recurses once with
`is_retry=True`; every other failure returns `False` directly. The
temp-file `unlink` calls have no observable effect in this model. -/
def run_ocrmypdf (env : OcrEnv) (input output : SplitPath) (is_retry : Bool) : OcrRun :=
  match env.ocr_outcome input.render with
  | .ok => { success := true, repairsInvoked := 0, ocrAttempts := 1 }
  | .toolMissing => { success := false, repairsInvoked := 0, ocrAttempts := 1 }
  | .unexpectedError => { success := false, repairsInvoked := 0, ocrAttempts := 1 }
  | .exitError returncode stderr =>
    if h : returncode = 7 ∧ mentions_ghostscript stderr = true ∧ is_retry = false then
      if run_ghostscript_repair env input (repairedTempPath input) then
        let r := run_ocrmypdf env (repairedTempPath input) output true
        { success := r.success, repairsInvoked := r.repairsInvoked + 1,
          ocrAttempts := r.ocrAttempts + 1 }
      else { success := false, repairsInvoked := 1, ocrAttempts := 1 }
    else { success := false, repairsInvoked := 0, ocrAttempts := 1 }
termination_by (if is_retry then 0 else 1)
decreasing_by simp [h.2.2]

/-! ## Document classifier response parsing (`analyze_text_with_llm`,
lines 230-261)

The transport layer (HTTP POST, status check, outer response envelope) is
outside the parsing core the claims are about; `json.loads` is the external
JSON parser, modelled as an oracle `json_loads` returning the key/value
pairs of the decoded object (or `none` for a `JSONDecodeError`). -/

/-- A decoded JSON value as far as the classifier result needs it. -/
inductive JsonVal where
  | str (s : String)
  | null
deriving DecidableEq

/-- A decoded JSON object: its key/value pairs. -/
abbrev JsonObj := List (String × JsonVal)

/-- `required_keys = ["datum", "absender", "titel", "kategorie"]` (lines
235 and 251). -/
def required_keys : List String := ["datum", "absender", "titel", "kategorie"]

/-- `key in result_json` for a decoded object. -/
def hasKey (o : JsonObj) (k : String) : Bool := o.any fun p => p.1 = k

/-- `all(key in result_json for key in required_keys)`. -/
def hasAllRequiredKeys (o : JsonObj) : Bool := required_keys.all (hasKey o)

/-- `re.search(r'\{.*\}', s, re.DOTALL)` (line 245): with a greedy `.*` and
DOTALL, the match — when one exists — runs from the first `{` of the string
to the last `}`, provided that `}` comes after that `{`. -/
def extract_json_candidate (s : String) : Option String :=
  match s.data.findIdx? (fun c => c = '{'), s.data.reverse.findIdx? (fun c => c = '}') with
  | some i, some jr =>
    let j := s.data.length - 1 - jr
    if i < j then some (String.mk ((s.data.drop i).take (j - i + 1)))
    else none
  | _, _ => none

/-- The response-parsing core of `analyze_text_with_llm` (lines 230-261):
parse the payload directly; on success require all four keys; on a decode
error fall back to the brace-delimited candidate and apply the same key
check; fail (`None`) otherwise. -/
def analyze_text_with_llm (json_loads : String → Option JsonObj)
    (llm_output : String) : Option JsonObj :=
  match json_loads llm_output with
  | some result_json =>
    if hasAllRequiredKeys result_json then some result_json else none
  | none =>
    match extract_json_candidate llm_output with
    | none => none
    | some extracted =>
      match json_loads extracted with
      | none => none
      | some result_json =>
        if hasAllRequiredKeys result_json then some result_json else none

/-! ## Orchestrator helpers: date validation and name building (`main`,
lines 366-396) -/

/-- Python `str.isdigit` for the ASCII digits the date format uses. -/
def digitVal (c : Char) : Nat := c.toNat - 48

/-- Gregorian leap-year rule, as `datetime` implements it. -/
def isLeapYear (y : Nat) : Bool := (y % 4 = 0 && y % 100 ≠ 0) || y % 400 = 0

/-- Days in month `m` of year `y`. -/
def daysInMonth (y m : Nat) : Nat :=
  if m = 2 then (if isLeapYear y then 29 else 28)
  else if m = 4 ∨ m = 6 ∨ m = 9 ∨ m = 11 then 30
  else 31

/-- The `%d` field of `strptime`: the day consumes the whole remainder of
the string (the regex pattern `3[01]|[12]\d|0[1-9]|[1-9]`, followed by the
end-of-input check `strptime` performs), and the resulting day must exist
in month `m` of year `y` for the `datetime` constructor to accept it. -/
def parseDayEnd (y m : Nat) : List Char → Bool
  | [d1, d2] =>
    ((d1 = '3' && (d2 = '0' || d2 = '1')) ||
      ((d1 = '1' || d1 = '2') && d2.isDigit) ||
      (d1 = '0' && d2.isDigit && !(d2 = '0'))) &&
    decide (10 * digitVal d1 + digitVal d2 ≤ daysInMonth y m)
  | [d1] => (d1.isDigit && !(d1 = '0')) && decide (digitVal d1 ≤ daysInMonth y m)
  | _ => false

/-- The `%m-%d` tail: `%m` is `1[0-2]|0[1-9]|[1-9]` followed by the literal
`-`. A one-digit month is possible exactly when the character after it is
the dash, so the two alternatives never overlap. -/
def parseMonthDayEnd (y : Nat) : List Char → Bool
  | m1 :: '-' :: rest =>
    (m1.isDigit && !(m1 = '0')) && parseDayEnd y (digitVal m1) rest
  | m1 :: m2 :: '-' :: rest =>
    ((m1 = '1' && (m2 = '0' || m2 = '1' || m2 = '2')) ||
      (m1 = '0' && m2.isDigit && !(m2 = '0'))) &&
    parseDayEnd y (10 * digitVal m1 + digitVal m2) rest
  | _ => false

/-- `datetime.strptime(datum_str, '%Y-%m-%d')` succeeding: `%Y` is exactly
four digits, and `datetime` additionally requires `year ≥ 1` and a day
valid for the month. -/
def is_valid_iso_date (s : String) : Bool :=
  match s.data with
  | y1 :: y2 :: y3 :: y4 :: '-' :: rest =>
    (y1.isDigit && y2.isDigit && y3.isDigit && y4.isDigit) &&
    (let y := 1000 * digitVal y1 + 100 * digitVal y2 + 10 * digitVal y3 + digitVal y4
     decide (1 ≤ y) && parseMonthDayEnd y rest)
  | _ => false

/-- The date-validation block of `main` (lines 373-382): a falsy value
(`None` or the empty string) or a string `strptime` rejects becomes the
sentinel `"NODATE"`; a valid ISO date passes through unchanged. -/
def validate_datum (datum_str : Option String) : String :=
  match datum_str with
  | none => "NODATE"
  | some s =>
    if s = "" then "NODATE"
    else if is_valid_iso_date s then s else "NODATE"

/-- Python whitespace for `str.strip()` with no argument. -/
def pyWhitespace (c : Char) : Bool :=
  c = ' ' || c = '\t' || c = '\n' || c = '\x0b' || c = '\x0c' || c = '\r'

/-- Python `str.strip()` (no argument): trim whitespace from both ends. -/
def pyStripWs (s : String) : String :=
  String.mk ((s.data.dropWhile pyWhitespace).rdropWhile pyWhitespace)

/-- Python `str.capitalize()` (ASCII fragment): first character uppercased,
every following character lowercased. -/
def pyCapitalize (s : String) : String :=
  match s.data with
  | [] => ""
  | c :: cs => String.mk (c.toUpper :: cs.map Char.toLower)

/-- `f"{datum_str} - {absender_sanitized} - {titel_sanitized}.pdf"`
(line 392). -/
def make_new_filename (datum absender titel : String) : String :=
  datum ++ " - " ++ absender ++ " - " ++ titel ++ ".pdf"

/-- The sender field as `main` computes it (lines 369, 384, 388):
`get("absender", "Unbekannt").strip()`, sanitized, with the empty-result
fallback. -/
def absender_sanitized (absender : String) : String :=
  let x := sanitize_filename (pyStripWs absender)
  if x = "" then "Unbekannter_Absender" else x

/-- The title field as `main` computes it (lines 370, 385, 389). -/
def titel_sanitized (titel : String) : String :=
  let x := sanitize_filename (pyStripWs titel)
  if x = "" then "Unbenannter_Titel" else x

/-- `str.replace(" ", "_")`: for the single-character pattern the code
uses, replacement is a character map. -/
def replaceSpaceUnderscore (s : String) : String :=
  String.mk (s.data.map fun c => if c = ' ' then '_' else c)

/-- The category directory name as `main` computes it (lines 371, 386,
390): `strip()`, then `capitalize()`, then sanitization, then spaces to
underscores, then the empty-result fallback `"Sonstiges"`. -/
def kategorie_sanitized (kategorie : String) : String :=
  let x := replaceSpaceUnderscore (sanitize_filename (pyCapitalize (pyStripWs kategorie)))
  if x = "" then "Sonstiges" else x

/-! ## Per-file orchestrator pipeline (`main`'s loop body, lines 325-431)

The per-file `try` block runs OCR (through `run_ocrmypdf`), checks the OCR
output file exists, extracts text, classifies, validates, moves the temp
file to the archive and only then unlinks the original. Any raised
exception lands in the `except` handler: the file is recorded as failed and
the original is left in place for the end-of-batch relocation. The stage
oracles beyond OCR live in a `PipelineEnv`; the outcome record instruments
which effects happened. Collision resolution only renames the target (it is
modelled separately by `get_next_available_filename` and cannot fail), so
it is not an input here. -/

/-- The classification result as `main` reads it out of the parsed dict
(`analyze_text_with_llm` has already checked all four keys are present;
a JSON `null` date surfaces as `none`). -/
structure AnalysisResult where
  datum : Option String
  absender : String
  titel : String
  kategorie : String

/-- Stage oracles for one file of the batch. -/
structure PipelineEnv where
  ocr : OcrEnv
  /-- `temp_ocr_pdf_path.exists()` after a successful OCR run (line 345). -/
  ocrOutputExists : Bool
  /-- `extract_text_from_pdf(temp_ocr_pdf_path)`: `none` models the
  extractor returning `None` (library missing or reader error). -/
  extractedText : Option String
  /-- The classifier result for the extracted text. -/
  llmResult : Option AnalysisResult
  /-- Whether `shutil.move` of the temp file to the archive succeeds. -/
  moveSucceeds : Bool

/-- What the per-file pipeline did to the world. -/
structure FileOutcome where
  success : Bool
  /-- `pdf_path.unlink()` was reached (line 409). -/
  originalDeleted : Bool
  /-- `shutil.move` completed (line 406). -/
  movedToArchive : Bool
  /-- `analyze_text_with_llm` was invoked (line 362). -/
  llmCalled : Bool
  /-- `"{kategorie}/{new_filename}"` under the archive root, for a success. -/
  archivedName : Option String

/-- A stage failure before the LLM call: the `except` branch outcome. -/
def failedBeforeLlm : FileOutcome :=
  { success := false, originalDeleted := false, movedToArchive := false,
    llmCalled := false, archivedName := none }

/-- A stage failure at or after the LLM call, before the move succeeded. -/
def failedAfterLlm : FileOutcome :=
  { success := false, originalDeleted := false, movedToArchive := false,
    llmCalled := true, archivedName := none }

/-- `pdf_path.stem + "_ocr_temp.pdf"` in the inbox (line 330). -/
def tempOcrPath (pdf : SplitPath) : SplitPath :=
  { parent := pdf.parent, stem := pdf.stem ++ "_ocr_temp", ext := ".pdf" }

/-- The body of `main`'s per-file `try` block (lines 335-419). -/
def process_file (env : PipelineEnv) (pdf : SplitPath) : FileOutcome :=
  if (run_ocrmypdf env.ocr pdf (tempOcrPath pdf) false).success = false then
    failedBeforeLlm
  else if env.ocrOutputExists = false then failedBeforeLlm
  else
    match env.extractedText with
    | none => failedBeforeLlm          -- `if not text:` catches `None`
    | some text =>
      if text = "" then failedBeforeLlm  -- ... and the empty string
      else
        -- a stripped length below 50 only logs a warning (lines 356-358)
        match env.llmResult with
        | none => failedAfterLlm
        | some a =>
          if env.moveSucceeds = false then failedAfterLlm
          else
            { success := true, originalDeleted := true, movedToArchive := true,
              llmCalled := true,
              archivedName := some (kategorie_sanitized a.kategorie ++ "/" ++
                make_new_filename (validate_datum a.datum)
                  (absender_sanitized a.absender) (titel_sanitized a.titel)) }

/-! ## Concrete instances used by witnesses and concrete scenarios -/

/-- The well-formed classifier payload of the example in the prompt
(line 204-210): a single JSON object with all four keys. -/
def sample_payload_full : String :=
  "\x7b\"datum\": \"2024-05-15\", \"absender\": \"Beispiel GmbH\", " ++
    "\"titel\": \"Rechnung Nr. 12345\", \"kategorie\": \"Rechnung\"\x7d"

/-- A JSON payload missing three of the four required keys. -/
def sample_payload_partial : String := "\x7b\"datum\": \"2024-05-15\"\x7d"

/-- The decoded object for `sample_payload_full`. -/
def sample_obj_full : JsonObj :=
  [("datum", .str "2024-05-15"), ("absender", .str "Beispiel GmbH"),
    ("titel", .str "Rechnung Nr. 12345"), ("kategorie", .str "Rechnung")]

/-- A concrete `json_loads` oracle: decodes exactly the two sample
payloads, raises `JSONDecodeError` (returns `none`) on anything else —
in particular on prose-wrapped payloads. -/
def sample_json_loads : String → Option JsonObj := fun s =>
  if s = sample_payload_full then some sample_obj_full
  else if s = sample_payload_partial then some [("datum", .str "2024-05-15")]
  else none

/-- A concrete per-file environment: OCR succeeds directly, the output
file exists, extraction yields a short non-empty text, classification
fails. -/
def sample_env : PipelineEnv :=
  { ocr := { ocr_outcome := fun _ => .ok, repair_outcome := fun _ _ => true },
    ocrOutputExists := true, extractedText := some "kurz", llmResult := none,
    moveSucceeds := true }

/-- A concrete inbox file. -/
def sample_pdf : SplitPath := ⟨"Inbox", "scan", ".pdf"⟩

end PdfProcessor

namespace PdfProcessor

/-! ## Lemmas about the sanitizer pipeline -/

theorem isForbidden_mem_replaceForbidden {cs : List Char} :
    ∀ c ∈ replaceForbidden cs, isForbidden c = false := by
  intro c hc
  simp only [replaceForbidden, List.mem_map] at hc
  obtain ⟨a, -, rfl⟩ := hc
  by_cases h : isForbidden a = true
  · simp only [if_pos h]
    decide
  · simp only [if_neg h]
    simpa using h

theorem mem_collapseUnderscoresAux {cs : List Char} :
    ∀ (prev : Bool) (c : Char), c ∈ collapseUnderscoresAux prev cs → c = '_' ∨ c ∈ cs := by
  induction cs with
  | nil => intro prev c h; cases prev <;> simp [collapseUnderscoresAux] at h
  | cons a rest ih =>
    intro prev c h
    cases prev <;> simp only [collapseUnderscoresAux] at h
    · by_cases ha : a = '_'
      · rw [if_pos ha] at h
        rcases List.mem_cons.mp h with h1 | h1
        · exact Or.inl h1
        · rcases ih true c h1 with h2 | h2
          · exact Or.inl h2
          · exact Or.inr (List.mem_cons_of_mem _ h2)
      · rw [if_neg ha] at h
        rcases List.mem_cons.mp h with h1 | h1
        · exact Or.inr (h1 ▸ List.mem_cons_self _ _)
        · rcases ih false c h1 with h2 | h2
          · exact Or.inl h2
          · exact Or.inr (List.mem_cons_of_mem _ h2)
    · by_cases ha : a = '_'
      · rw [if_pos ha] at h
        rcases ih true c h with h2 | h2
        · exact Or.inl h2
        · exact Or.inr (List.mem_cons_of_mem _ h2)
      · rw [if_neg ha] at h
        rcases List.mem_cons.mp h with h1 | h1
        · exact Or.inr (h1 ▸ List.mem_cons_self _ _)
        · rcases ih false c h1 with h2 | h2
          · exact Or.inl h2
          · exact Or.inr (List.mem_cons_of_mem _ h2)

theorem collapseUnderscoresAux_true_head (cs : List Char) :
    (collapseUnderscoresAux true cs).head? ≠ some '_' := by
  induction cs with
  | nil => simp [collapseUnderscoresAux]
  | cons a rest ih =>
    simp only [collapseUnderscoresAux]
    by_cases ha : a = '_'
    · rw [if_pos ha]; exact ih
    · rw [if_neg ha]
      simpa using ha

theorem chain'_collapseUnderscoresAux (cs : List Char) :
    ∀ prev, List.Chain' underscoreApart (collapseUnderscoresAux prev cs) := by
  induction cs with
  | nil => intro prev; cases prev <;> simp [collapseUnderscoresAux]
  | cons a rest ih =>
    intro prev
    have hcons : ∀ b : Char, b ≠ '_' →
        List.Chain' underscoreApart (b :: collapseUnderscoresAux false rest) := by
      intro b hb
      rw [List.chain'_cons']
      refine ⟨?_, ih false⟩
      intro c _ hcontra
      exact hb hcontra.1
    cases prev <;> simp only [collapseUnderscoresAux] <;> by_cases ha : a = '_'
    · rw [if_pos ha]
      rw [List.chain'_cons']
      refine ⟨?_, ih true⟩
      intro c hc hcontra
      rcases hcontra with ⟨-, rfl⟩
      exact collapseUnderscoresAux_true_head rest hc
    · rw [if_neg ha]; exact hcons a ha
    · rw [if_pos ha]; exact ih true
    · rw [if_neg ha]; exact hcons a ha

theorem collapseUnderscoresAux_eq_self {cs : List Char}
    (h : List.Chain' underscoreApart cs) :
    collapseUnderscoresAux false cs = cs ∧
      (cs.head? ≠ some '_' → collapseUnderscoresAux true cs = cs) := by
  induction cs with
  | nil => simp [collapseUnderscoresAux]
  | cons a rest ih =>
    rw [List.chain'_cons'] at h
    obtain ⟨hhead, hchain⟩ := h
    obtain ⟨ihf, iht⟩ := ih hchain
    by_cases ha : a = '_'
    · subst ha
      have hresthead : rest.head? ≠ some '_' := by
        intro hh
        exact hhead '_' hh ⟨rfl, rfl⟩
      constructor
      · simp [collapseUnderscoresAux, iht hresthead]
      · intro hne
        exact (hne rfl).elim
    · constructor
      · simp only [collapseUnderscoresAux, if_neg ha, ihf]
      · intro _
        simp only [collapseUnderscoresAux, if_neg ha, ihf]

theorem pySplitSpace_ne_nil (cs : List Char) : pySplitSpace cs ≠ [] := by
  cases cs with
  | nil => simp [pySplitSpace]
  | cons a rest =>
    simp only [pySplitSpace]
    rcases h : pySplitSpace rest with _ | ⟨p, ps⟩
    · simp
    · by_cases ha : a = ' ' <;> simp [ha]

theorem joinSpaces_pySplitSpace (cs : List Char) : joinSpaces (pySplitSpace cs) = cs := by
  induction cs with
  | nil => rfl
  | cons a rest ih =>
    rcases hsplit : pySplitSpace rest with _ | ⟨p, ps⟩
    · exact absurd hsplit (pySplitSpace_ne_nil rest)
    · rw [hsplit] at ih
      have hstep : pySplitSpace (a :: rest) =
          if a = ' ' then [] :: p :: ps else (a :: p) :: ps := by
        simp only [pySplitSpace, hsplit]
      rw [hstep]
      by_cases ha : a = ' '
      · subst ha
        rw [if_pos rfl]
        show ([] : List Char) ++ ' ' :: joinSpaces (p :: ps) = ' ' :: rest
        rw [List.nil_append, ih]
      · rw [if_neg ha]
        cases ps with
        | nil =>
          simp only [joinSpaces] at ih ⊢
          rw [ih]
        | cons q qs =>
          simp only [joinSpaces] at ih ⊢
          rw [List.cons_append, ih]

theorem joinSpaces_dropLast_isPre (ps : List (List Char)) :
    joinSpaces ps.dropLast <+: joinSpaces ps := by
  induction ps with
  | nil => simp
  | cons p rest ih =>
    cases rest with
    | nil =>
      simp only [List.dropLast_single, joinSpaces]
      exact List.nil_prefix
    | cons q qs =>
      rw [List.dropLast_cons₂]
      rcases hd : (q :: qs).dropLast with _ | ⟨d, ds⟩
      · show joinSpaces [p] <+: joinSpaces (p :: q :: qs)
        exact ⟨' ' :: joinSpaces (q :: qs), rfl⟩
      · rw [hd] at ih
        obtain ⟨t, ht⟩ := ih
        refine ⟨t, ?_⟩
        show (p ++ ' ' :: joinSpaces (d :: ds)) ++ t = p ++ ' ' :: joinSpaces (q :: qs)
        rw [List.append_assoc, List.cons_append, ht]

theorem truncateName_isPre (cs : List Char) : truncateName cs <+: cs := by
  unfold truncateName
  split
  · split
    · refine ( joinSpaces_dropLast_isPre _).trans ?_
      rw [joinSpaces_pySplitSpace]
      exact List.take_prefix _ _
    · exact List.take_prefix _ _
  · exact List.prefix_refl _

theorem truncateName_length_le (cs : List Char) : (truncateName cs).length ≤ max_len := by
  unfold truncateName
  split
  · split
    · have h1 := ( joinSpaces_dropLast_isPre (pySplitSpace (cs.take max_len))).length_le
      rw [joinSpaces_pySplitSpace] at h1
      calc (joinSpaces (pySplitSpace (cs.take max_len)).dropLast).length
          ≤ (cs.take max_len).length := h1
        _ ≤ max_len := by simp [List.length_take]
    · simp [List.length_take]
  · omega

theorem stripSpaceUnderscore_sublist (cs : List Char) :
    List.Sublist (stripSpaceUnderscore cs) cs :=
  (( List.rdropWhile_prefix _ _).sublist).trans (List.dropWhile_sublist _)

theorem chain'_stripSpaceUnderscore {cs : List Char}
    (h : List.Chain' underscoreApart cs) :
    List.Chain' underscoreApart (stripSpaceUnderscore cs) := by
  have h1 : List.Chain' underscoreApart (cs.dropWhile stripSet) :=
    h.suffix (List.dropWhile_suffix _)
  exact h1.prefix ( List.rdropWhile_prefix _ _)

/-- C5, body of the theorem: all three invariants of the sanitizer output. -/
theorem sanitizeList_safe (cs : List Char) :
    (∀ c ∈ sanitizeList cs, isForbidden c = false) ∧
      NoDoubleUnderscore (sanitizeList cs) ∧ (sanitizeList cs).length ≤ max_len := by
  refine ⟨?_, ?_, ?_⟩
  · intro c hc
    have h1 : c ∈ stripSpaceUnderscore (collapseUnderscores (replaceForbidden cs)) :=
      (truncateName_isPre _).sublist.subset hc
    have h2 : c ∈ collapseUnderscores (replaceForbidden cs) :=
      (stripSpaceUnderscore_sublist _).subset h1
    rcases mem_collapseUnderscoresAux _ _ h2 with rfl | h3
    · decide
    · exact isForbidden_mem_replaceForbidden _ h3
  · have hc : List.Chain' underscoreApart (collapseUnderscores (replaceForbidden cs)) :=
      chain'_collapseUnderscoresAux _ false
    have hs := chain'_stripSpaceUnderscore hc
    exact hs.prefix (truncateName_isPre _)
  · exact truncateName_length_le _

/-- **C5** (confirmed). For every input string, the output of
`sanitize_filename` contains none of the disallowed characters
`< > : " / \ | ? *`, contains no two consecutive underscores, and has
length at most 200. -/
theorem sanitize_filename_output_safe (s : String) :
    (∀ c ∈ (sanitize_filename s).data, isForbidden c = false) ∧
      NoDoubleUnderscore (sanitize_filename s).data ∧
      (sanitize_filename s).length ≤ 200 :=
  sanitizeList_safe s.data

/-! ## Idempotence of the sanitizer (C6) -/

theorem replaceForbidden_eq_self {cs : List Char}
    (h : ∀ c ∈ cs, isForbidden c = false) : replaceForbidden cs = cs := by
  unfold replaceForbidden
  induction cs with
  | nil => rfl
  | cons a rest ih =>
    rw [List.map_cons]
    rw [if_neg (by rw [h a (List.mem_cons_self a rest)]; simp)]
    rw [ih fun c hc => h c (List.mem_cons_of_mem _ hc)]

theorem dropWhile_eq_cons_head_false {p : Char → Bool} {cs rest : List Char} {c : Char}
    (h : cs.dropWhile p = c :: rest) : p c = false := by
  induction cs with
  | nil => simp [List.dropWhile] at h
  | cons a tl ih =>
    rw [List.dropWhile_cons] at h
    by_cases hp : p a = true
    · rw [if_pos hp] at h; exact ih h
    · rw [if_neg hp] at h
      injection h with h1 h2
      subst h1
      simpa using hp

theorem stripSpaceUnderscore_idem (cs : List Char) :
    stripSpaceUnderscore (stripSpaceUnderscore cs) = stripSpaceUnderscore cs := by
  unfold stripSpaceUnderscore
  set d := cs.dropWhile stripSet with hd
  have h1 : (d.rdropWhile stripSet).dropWhile stripSet = d.rdropWhile stripSet := by
    rcases hm : d.rdropWhile stripSet with _ | ⟨c, rest⟩
    · simp
    · have hpre : d.rdropWhile stripSet <+: d := List.rdropWhile_prefix _ _
      rw [hm] at hpre
      obtain ⟨t, ht⟩ := hpre
      have hc : stripSet c = false := by
        apply @dropWhile_eq_cons_head_false stripSet cs (rest ++ t) c
        rw [← hd, ← ht]
        simp
      rw [List.dropWhile_cons, if_neg (by simp [hc])]
  rw [h1, List.rdropWhile_idempotent]

theorem collapseUnderscoresAux_length_le (cs : List Char) :
    ∀ prev, (collapseUnderscoresAux prev cs).length ≤ cs.length := by
  induction cs with
  | nil => intro prev; cases prev <;> simp [collapseUnderscoresAux]
  | cons a rest ih =>
    intro prev
    cases prev
    · simp only [collapseUnderscoresAux]
      by_cases ha : a = '_'
      · rw [if_pos ha]; simpa using ih true
      · rw [if_neg ha]; simpa using ih false
    · simp only [collapseUnderscoresAux]
      by_cases ha : a = '_'
      · rw [if_pos ha]
        exact le_trans (ih true) (Nat.le_succ _)
      · rw [if_neg ha]; simpa using ih false

theorem sanitizeList_eq_of_le {cs : List Char} (h : cs.length ≤ max_len) :
    sanitizeList cs = stripSpaceUnderscore (collapseUnderscores (replaceForbidden cs)) := by
  unfold sanitizeList truncateName
  rw [if_neg]
  have h1 : (replaceForbidden cs).length = cs.length := by simp [replaceForbidden]
  have h2 := collapseUnderscoresAux_length_le (replaceForbidden cs) false
  have h3 := (stripSpaceUnderscore_sublist (collapseUnderscores (replaceForbidden cs))).length_le
  simp only [collapseUnderscores] at *
  omega

theorem sanitizeList_idem_of_le {cs : List Char} (h : cs.length ≤ max_len) :
    sanitizeList (sanitizeList cs) = sanitizeList cs := by
  have hr : sanitizeList cs = stripSpaceUnderscore (collapseUnderscores (replaceForbidden cs)) :=
    sanitizeList_eq_of_le h
  set r := sanitizeList cs with hrdef
  have hgood : ∀ c ∈ r, isForbidden c = false := (sanitizeList_safe cs).1
  have hchain : List.Chain' underscoreApart r := (sanitizeList_safe cs).2.1
  have hlen : r.length ≤ max_len := (sanitizeList_safe cs).2.2
  show truncateName (stripSpaceUnderscore (collapseUnderscores (replaceForbidden r))) = r
  rw [replaceForbidden_eq_self hgood]
  rw [show collapseUnderscores r = r from (collapseUnderscoresAux_eq_self hchain).1]
  rw [hr, stripSpaceUnderscore_idem, ← hr]
  unfold truncateName
  rw [if_neg (by omega)]

set_option maxRecDepth 4000 in
/-- **C6**, counterexample. The claim "`sanitize_filename` is idempotent for
every input string" is false: on the 202-character input
`"a_ " ++ "b"*199` the sanitizer truncates at the word boundary and returns
`"a_"`, whose second sanitization strips the now-trailing underscore,
yielding `"a"`. -/
theorem sanitize_filename_not_idempotent :
    sanitize_filename (sanitize_filename ("a_ " ++ String.mk (List.replicate 199 'b'))) ≠
      sanitize_filename ("a_ " ++ String.mk (List.replicate 199 'b')) := by
  decide

/-- **C6** (corrected). `sanitize_filename` is idempotent on every input of
length at most 200 (idempotence can only fail when the truncation step
runs, which requires an input longer than 200 characters). -/
theorem sanitize_filename_idem_of_le (s : String) (h : s.length ≤ 200) :
    sanitize_filename (sanitize_filename s) = sanitize_filename s := by
  show String.mk (sanitizeList (sanitizeList s.data)) = String.mk (sanitizeList s.data)
  rw [sanitizeList_idem_of_le h]

/-- Witness for C6's amended theorem at the concrete input `"a<b>:c "`. -/
theorem sanitize_filename_idem_of_le_witness :
    ("a<b>:c " : String).length ≤ 200 ∧
      sanitize_filename (sanitize_filename "a<b>:c ") = sanitize_filename "a<b>:c " :=
  ⟨by decide, sanitize_filename_idem_of_le "a<b>:c " (by decide)⟩

/-! ## The collision resolver (C7) -/

theorem probeCounter_eq (fs : List String) (p : SplitPath) :
    ∀ (fuel c m : Nat), c ≤ m → (numberedPath p m).render ∉ fs →
      (∀ j, c ≤ j → j < m → (numberedPath p j).render ∈ fs) →
      m < c + fuel →
      probeCounter fs p c fuel = some (numberedPath p m) := by
  intro fuel
  induction fuel with
  | zero => intro c m h1 _ _ h4; exact absurd h4 (by omega)
  | succ fuel ih =>
    intro c m h1 h2 h3 h4
    by_cases hc : c = m
    · subst hc
      simp only [probeCounter]
      rw [if_neg h2]
    · have hcm : c < m := lt_of_le_of_ne h1 hc
      simp only [probeCounter]
      rw [if_pos (h3 c le_rfl hcm)]
      exact ih (c + 1) m hcm h2 (fun j hj hjm => h3 j (by omega) hjm) (by omega)

/-- **C7** (confirmed). `get_next_available_filename` returns its input path
unchanged when no file exists at that path; otherwise it returns
`"{stem} ({m}){ext}"` in the same directory for the smallest counter
`m ≥ 1` whose rendered path is not among the existing paths (`fuel`
stands for the unbounded Python probe loop; any fuel of at least `m`
suffices). The final conjunct exercises both branches on a concrete
two-entry filesystem. -/
theorem get_next_available_filename_correct (fs : List String) (target : SplitPath) :
    (target.render ∉ fs → ∀ fuel, get_next_available_filename fs target fuel = some target) ∧
    (∀ m, target.render ∈ fs → 1 ≤ m → (numberedPath target m).render ∉ fs →
      (∀ j, 1 ≤ j → j < m → (numberedPath target j).render ∈ fs) →
      ∀ fuel, m ≤ fuel →
        get_next_available_filename fs target fuel = some (numberedPath target m)) ∧
    (get_next_available_filename ["d/a.pdf", "d/a (1).pdf"] ⟨"d", "a", ".pdf"⟩ 2 =
        some ⟨"d", "a (2)", ".pdf"⟩ ∧
      get_next_available_filename ["d/b.pdf"] ⟨"d", "a", ".pdf"⟩ 1 =
        some ⟨"d", "a", ".pdf"⟩) := by
  refine ⟨?_, ?_, by decide⟩
  · intro h fuel
    unfold get_next_available_filename
    rw [if_neg h]
  · intro m hmem h1 h2 h3 fuel hfuel
    unfold get_next_available_filename
    rw [if_pos hmem]
    exact probeCounter_eq fs target fuel 1 m h1 h2 (fun j hj hjm => h3 j hj hjm) (by omega)

/-! ## The OCR retry state machine (C2, C3) -/

theorem run_ocrmypdf_ok {env : OcrEnv} {input : SplitPath} (output : SplitPath)
    (is_retry : Bool) (h : env.ocr_outcome input.render = .ok) :
    run_ocrmypdf env input output is_retry =
      { success := true, repairsInvoked := 0, ocrAttempts := 1 } := by
  conv_lhs => unfold run_ocrmypdf
  rw [h]

theorem run_ocrmypdf_toolMissing {env : OcrEnv} {input : SplitPath} (output : SplitPath)
    (is_retry : Bool) (h : env.ocr_outcome input.render = .toolMissing) :
    run_ocrmypdf env input output is_retry =
      { success := false, repairsInvoked := 0, ocrAttempts := 1 } := by
  conv_lhs => unfold run_ocrmypdf
  rw [h]

theorem run_ocrmypdf_unexpectedError {env : OcrEnv} {input : SplitPath} (output : SplitPath)
    (is_retry : Bool) (h : env.ocr_outcome input.render = .unexpectedError) :
    run_ocrmypdf env input output is_retry =
      { success := false, repairsInvoked := 0, ocrAttempts := 1 } := by
  conv_lhs => unfold run_ocrmypdf
  rw [h]

theorem run_ocrmypdf_exitError {env : OcrEnv} {input : SplitPath} (output : SplitPath)
    (is_retry : Bool) {rc : Int} {err : String}
    (h : env.ocr_outcome input.render = .exitError rc err) :
    run_ocrmypdf env input output is_retry =
      if rc = 7 ∧ mentions_ghostscript err = true ∧ is_retry = false then
        if run_ghostscript_repair env input (repairedTempPath input) = true then
          { success := (run_ocrmypdf env (repairedTempPath input) output true).success,
            repairsInvoked :=
              (run_ocrmypdf env (repairedTempPath input) output true).repairsInvoked + 1,
            ocrAttempts :=
              (run_ocrmypdf env (repairedTempPath input) output true).ocrAttempts + 1 }
        else { success := false, repairsInvoked := 1, ocrAttempts := 1 }
      else { success := false, repairsInvoked := 0, ocrAttempts := 1 } := by
  conv_lhs => unfold run_ocrmypdf
  split
  next heq => rw [h] at heq; exact absurd heq (by simp)
  next heq => rw [h] at heq; exact absurd heq (by simp)
  next heq => rw [h] at heq; exact absurd heq (by simp)
  next returncode stderr heq =>
    rw [h] at heq
    injection heq with h1 h2
    subst h1
    subst h2
    by_cases hc : rc = 7 ∧ mentions_ghostscript err = true ∧ is_retry = false
    · rw [dif_pos hc, if_pos hc]
    · rw [dif_neg hc, if_neg hc]

/-- On a retried attempt the repair branch is disabled by the flag: no
repair is invoked and exactly one OCR attempt is made. -/
theorem run_ocrmypdf_retry_flat (env : OcrEnv) (input output : SplitPath) :
    (run_ocrmypdf env input output true).repairsInvoked = 0 ∧
      (run_ocrmypdf env input output true).ocrAttempts = 1 ∧
      ((run_ocrmypdf env input output true).success = true ↔
        env.ocr_outcome input.render = .ok) := by
  cases h : env.ocr_outcome input.render with
  | ok => rw [run_ocrmypdf_ok output true h]; simp
  | toolMissing => rw [run_ocrmypdf_toolMissing output true h]; simp
  | unexpectedError => rw [run_ocrmypdf_unexpectedError output true h]; simp
  | exitError rc err =>
    rw [run_ocrmypdf_exitError output true h, if_neg (by simp)]
    simp

/-- **C2** (confirmed). For every invocation of `run_ocrmypdf` with the
retry flag false, the Ghostscript repair is invoked at most once and at
most two OCR attempts happen (recursion depth at most 1); and in the
scenario where the first attempt fails with the rasterizer signature
(exit code 7, stderr mentioning Ghostscript), the repair succeeds, and the
retried attempt fails with the rasterizer signature again, no further
repair or retry is attempted (exactly one repair, exactly two attempts)
and failure is returned. -/
theorem run_ocrmypdf_retry_depth_bounded (env : OcrEnv) (input output : SplitPath) :
    (run_ocrmypdf env input output false).repairsInvoked ≤ 1 ∧
      (run_ocrmypdf env input output false).ocrAttempts ≤ 2 ∧
      (∀ rc err rc2 err2,
        env.ocr_outcome input.render = .exitError rc err →
        rc = 7 → mentions_ghostscript err = true →
        run_ghostscript_repair env input (repairedTempPath input) = true →
        env.ocr_outcome (repairedTempPath input).render = .exitError rc2 err2 →
        rc2 = 7 → mentions_ghostscript err2 = true →
        (run_ocrmypdf env input output false).success = false ∧
          (run_ocrmypdf env input output false).repairsInvoked = 1 ∧
          (run_ocrmypdf env input output false).ocrAttempts = 2) := by
  obtain ⟨hr0, hr1, -⟩ := run_ocrmypdf_retry_flat env (repairedTempPath input) output
  have hbounds : (run_ocrmypdf env input output false).repairsInvoked ≤ 1 ∧
      (run_ocrmypdf env input output false).ocrAttempts ≤ 2 := by
    cases h : env.ocr_outcome input.render with
    | ok => rw [run_ocrmypdf_ok output false h]; simp
    | toolMissing => rw [run_ocrmypdf_toolMissing output false h]; simp
    | unexpectedError => rw [run_ocrmypdf_unexpectedError output false h]; simp
    | exitError rc err =>
      rw [run_ocrmypdf_exitError output false h]
      split
      · split
        · simp [hr0, hr1]
        · simp
      · simp
  refine ⟨hbounds.1, hbounds.2, ?_⟩
  intro rc err rc2 err2 h1 h2 h3 h4 h5 _ _
  subst h2
  have hret : run_ocrmypdf env (repairedTempPath input) output true =
      { success := false, repairsInvoked := 0, ocrAttempts := 1 } := by
    rw [run_ocrmypdf_exitError output true h5, if_neg (by simp)]
  rw [run_ocrmypdf_exitError output false h1, if_pos ⟨rfl, h3, rfl⟩, if_pos h4, hret]
  simp

/-- **C3** (confirmed). `run_ocrmypdf` enters the repair-and-retry path if
and only if the OCR tool raised `CalledProcessError` with exit code 7,
its stderr mentions Ghostscript, and the retry flag is false; when the
tool binary is missing, and when a non-zero exit lacks any part of that
signature (including the signature arising on a retried attempt), it
returns failure with no repair invoked. -/
theorem run_ocrmypdf_repair_condition (env : OcrEnv) (input output : SplitPath)
    (is_retry : Bool) :
    (1 ≤ (run_ocrmypdf env input output is_retry).repairsInvoked ↔
      (∃ err, env.ocr_outcome input.render = .exitError 7 err ∧
        mentions_ghostscript err = true ∧ is_retry = false)) ∧
    (env.ocr_outcome input.render = .toolMissing →
      run_ocrmypdf env input output is_retry =
        { success := false, repairsInvoked := 0, ocrAttempts := 1 }) ∧
    (∀ rc err, env.ocr_outcome input.render = .exitError rc err →
      ¬(rc = 7 ∧ mentions_ghostscript err = true ∧ is_retry = false) →
      run_ocrmypdf env input output is_retry =
        { success := false, repairsInvoked := 0, ocrAttempts := 1 }) := by
  refine ⟨?_, ?_, ?_⟩
  · cases h : env.ocr_outcome input.render with
    | ok =>
      rw [run_ocrmypdf_ok output is_retry h]
      simp
    | toolMissing =>
      rw [run_ocrmypdf_toolMissing output is_retry h]
      simp
    | unexpectedError =>
      rw [run_ocrmypdf_unexpectedError output is_retry h]
      simp
    | exitError rc err =>
      rw [run_ocrmypdf_exitError output is_retry h]
      by_cases hc : rc = 7 ∧ mentions_ghostscript err = true ∧ is_retry = false
      · obtain ⟨hrc, hm, hf⟩ := hc
        subst hrc
        rw [if_pos ⟨rfl, hm, hf⟩]
        constructor
        · intro _
          exact ⟨err, rfl, hm, hf⟩
        · intro _
          split
          · simp
          · simp
      · rw [if_neg hc]
        simp only [OcrRun.mk.injEq]
        constructor
        · intro habs
          simp at habs
        · rintro ⟨err2, heq, hm2, hf2⟩
          injection heq with hrc herr
          refine absurd ⟨hrc, ?_, hf2⟩ hc
          rw [herr]
          exact hm2
  · intro h
    rw [run_ocrmypdf_toolMissing output is_retry h]
  · intro rc err h hneg
    rw [run_ocrmypdf_exitError output is_retry h, if_neg hneg]

/-! ## Classifier response parsing (C4) -/

set_option maxRecDepth 4000 in
/-- **C4** (confirmed). `analyze_text_with_llm` returns a classification
result only if the decoded JSON object has all four required keys
(`datum`, `absender`, `titel`, `kategorie`): a directly decodable payload
with all four keys is accepted by the direct path; an undecodable payload
whose brace-delimited candidate decodes with all four keys is recovered
by the fallback; a decoded object missing a required key yields `none` on
either path. The last conjunct runs all four concrete scenarios against
the `sample_json_loads` oracle, a prose-wrapped payload included. -/
theorem analyze_text_with_llm_requires_keys (json_loads : String → Option JsonObj)
    (llm_output : String) :
    (∀ o, analyze_text_with_llm json_loads llm_output = some o →
      hasAllRequiredKeys o = true) ∧
    (∀ o, json_loads llm_output = some o → hasAllRequiredKeys o = true →
      analyze_text_with_llm json_loads llm_output = some o) ∧
    (∀ o, json_loads llm_output = some o → hasAllRequiredKeys o = false →
      analyze_text_with_llm json_loads llm_output = none) ∧
    (∀ sub o, json_loads llm_output = none →
      extract_json_candidate llm_output = some sub →
      json_loads sub = some o → hasAllRequiredKeys o = true →
      analyze_text_with_llm json_loads llm_output = some o) ∧
    (∀ sub o, json_loads llm_output = none →
      extract_json_candidate llm_output = some sub →
      json_loads sub = some o → hasAllRequiredKeys o = false →
      analyze_text_with_llm json_loads llm_output = none) ∧
    (analyze_text_with_llm sample_json_loads sample_payload_full = some sample_obj_full ∧
      analyze_text_with_llm sample_json_loads
        ("Hier ist das Ergebnis: " ++ sample_payload_full ++ " Danke.") =
        some sample_obj_full ∧
      analyze_text_with_llm sample_json_loads sample_payload_partial = none ∧
      analyze_text_with_llm sample_json_loads
        ("Hier ist das Ergebnis: " ++ sample_payload_partial ++ " Danke.") = none) := by
  refine ⟨?_, ?_, ?_, ?_, ?_, by decide⟩
  · intro o ho
    unfold analyze_text_with_llm at ho
    cases hj : json_loads llm_output with
    | some r =>
      simp only [hj] at ho
      by_cases hk : hasAllRequiredKeys r = true
      · rw [if_pos hk] at ho
        cases ho
        exact hk
      · rw [if_neg hk] at ho
        cases ho
    | none =>
      simp only [hj] at ho
      cases hc : extract_json_candidate llm_output with
      | none => simp only [hc] at ho; cases ho
      | some sub =>
        simp only [hc] at ho
        cases hj2 : json_loads sub with
        | none => simp only [hj2] at ho; cases ho
        | some r =>
          simp only [hj2] at ho
          by_cases hk : hasAllRequiredKeys r = true
          · rw [if_pos hk] at ho
            cases ho
            exact hk
          · rw [if_neg hk] at ho
            cases ho
  · intro o hj hk
    unfold analyze_text_with_llm
    simp only [hj]
    rw [if_pos hk]
  · intro o hj hk
    unfold analyze_text_with_llm
    simp only [hj]
    rw [if_neg (by simp [hk])]
  · intro sub o hj hc hj2 hk
    unfold analyze_text_with_llm
    simp only [hj, hc, hj2]
    rw [if_pos hk]
  · intro sub o hj hc hj2 hk
    unfold analyze_text_with_llm
    simp only [hj, hc, hj2]
    rw [if_neg (by simp [hk])]

/-! ## Orchestrator date validation (C8) -/

/-- **C8** (confirmed). In the orchestrator's date validation,
`"2024-05-15"` passes through unchanged into the new filename, while
`"15.05.2024"`, the empty string, and `None` all resolve to the
`"NODATE"` sentinel. -/
theorem validate_datum_cases :
    validate_datum (some "2024-05-15") = "2024-05-15" ∧
      validate_datum (some "15.05.2024") = "NODATE" ∧
      validate_datum (some "") = "NODATE" ∧
      validate_datum none = "NODATE" ∧
      make_new_filename (validate_datum (some "2024-05-15")) "Beispiel_GmbH" "Rechnung" =
        "2024-05-15 - Beispiel_GmbH - Rechnung.pdf" ∧
      make_new_filename (validate_datum (some "15.05.2024")) "Beispiel_GmbH" "Rechnung" =
        "NODATE - Beispiel_GmbH - Rechnung.pdf" := by
  decide

/-! ## Orchestrator control flow (C1, C9) -/

/-- **C1** (confirmed). The per-file pipeline deletes the original input
file only when the move of the OCR'd temp file to the archive has
succeeded (and the whole file succeeded); whenever the file fails at any
stage, the original is not deleted — it stays for the end-of-batch
relocation to the failure directory. -/
theorem process_file_deletes_only_after_move (env : PipelineEnv) (pdf : SplitPath) :
    ((process_file env pdf).originalDeleted = true →
      (process_file env pdf).movedToArchive = true ∧ env.moveSucceeds = true ∧
        (process_file env pdf).success = true) ∧
    ((process_file env pdf).success = false →
      (process_file env pdf).originalDeleted = false) := by
  unfold process_file
  split
  · simp [failedBeforeLlm]
  · split
    · simp [failedBeforeLlm]
    · split
      · simp [failedBeforeLlm]
      · split
        · simp [failedBeforeLlm]
        · split
          · simp [failedAfterLlm]
          · split
            · simp [failedAfterLlm]
            · next hmove =>
              simp only [Bool.not_eq_false] at hmove
              simp [hmove]

/-- **C9** (confirmed). With OCR succeeded and the temp output present,
extraction yielding an empty result fails the file before classification,
while non-empty text with stripped length below 50 characters proceeds to
classification (the classifier is invoked) without failing at that
stage. -/
theorem process_file_empty_vs_short_text (env : PipelineEnv) (pdf : SplitPath)
    (text : String)
    (hocr : (run_ocrmypdf env.ocr pdf (tempOcrPath pdf) false).success = true)
    (hexists : env.ocrOutputExists = true)
    (htext : env.extractedText = some text) :
    (text = "" →
      (process_file env pdf).success = false ∧
        (process_file env pdf).llmCalled = false) ∧
    (text ≠ "" → (pyStripWs text).length < 50 →
      (process_file env pdf).llmCalled = true) := by
  constructor
  · intro hempty
    subst hempty
    unfold process_file
    rw [if_neg (by simp [hocr]), if_neg (by simp [hexists])]
    simp only [htext]
    simp [failedBeforeLlm]
  · intro hne _
    unfold process_file
    rw [if_neg (by simp [hocr]), if_neg (by simp [hexists])]
    simp only [htext]
    rw [if_neg hne]
    rcases hllm : env.llmResult with _ | a
    · simp only [hllm]
      simp [failedAfterLlm]
    · simp only [hllm]
      by_cases hmove : env.moveSucceeds = false
      · rw [if_pos hmove]
        simp [failedAfterLlm]
      · rw [if_neg hmove]

/-- Witness for C9 at `sample_env`/`sample_pdf` with the four-character
text `"kurz"`. -/
theorem process_file_empty_vs_short_text_witness :
    (("kurz" : String) = "" →
      (process_file sample_env sample_pdf).success = false ∧
        (process_file sample_env sample_pdf).llmCalled = false) ∧
    (("kurz" : String) ≠ "" → (pyStripWs "kurz").length < 50 →
      (process_file sample_env sample_pdf).llmCalled = true) :=
  process_file_empty_vs_short_text sample_env sample_pdf "kurz"
    (by rw [run_ocrmypdf_ok (tempOcrPath sample_pdf) false rfl]) rfl rfl

/-! ## Category capitalization (C10) -/

theorem toLower_isUpper_eq_false (c : Char) : (Char.toLower c).isUpper = false := by
  show (if c.toNat ≥ 65 ∧ c.toNat ≤ 90 then Char.ofNat (c.toNat + 32) else c).isUpper = false
  split
  next h =>
    obtain ⟨h1, h2⟩ := h
    set n := c.toNat with hn
    interval_cases n <;> decide
  next h =>
    simp only [Char.isUpper]
    rw [Bool.and_eq_false_iff]
    by_contra hcontra
    rw [not_or] at hcontra
    obtain ⟨ha, hb⟩ := hcontra
    apply h
    constructor
    · have ha' := of_decide_eq_true (Bool.not_eq_false _ |>.mp ha)
      have hna : (65 : UInt32).toNat ≤ c.val.toNat := ha'
      exact hna
    · have hb' := of_decide_eq_true (Bool.not_eq_false _ |>.mp hb)
      have hnb : c.val.toNat ≤ (90 : UInt32).toNat := hb'
      exact hnb

/-- **C10** (confirmed). Before sanitization the orchestrator applies
Python `str.capitalize` to the classifier's category string — so the
archive subdirectory never keeps the returned category's casing beyond
the first letter: `"STEUER"` and `"steuer"` are both archived under
`"Steuer"`, and `"IT"` under `"It"`; in general, every character after
the first in the capitalized category is non-uppercase. -/
theorem kategorie_sanitized_capitalizes :
    kategorie_sanitized "STEUER" = "Steuer" ∧
      kategorie_sanitized "steuer" = "Steuer" ∧
      kategorie_sanitized "IT" = "It" ∧
      kategorie_sanitized "sTeUeR" = "Steuer" ∧
      (∀ s : String, ∀ c ∈ (pyCapitalize s).data.drop 1, c.isUpper = false) := by
  refine ⟨by decide, by decide, by decide, by decide, ?_⟩
  intro s c hc
  obtain ⟨l⟩ := s
  cases l with
  | nil => simp [pyCapitalize] at hc
  | cons d ds =>
    have : (pyCapitalize (String.mk (d :: ds))).data = d.toUpper :: ds.map Char.toLower := rfl
    rw [this] at hc
    simp only [List.drop_succ_cons, List.drop_zero] at hc
    obtain ⟨a, -, rfl⟩ := List.mem_map.mp hc
    exact toLower_isUpper_eq_false a

end PdfProcessor
